import Mathlib

/- Verification development for the Dishcovery recipe-recommendation
repository.  It gives a shallow embedding of the image normalization,
prompt construction, response shaping and error-handling logic of
src/recipe.py and src/recip.py, together with a spec-modelled byte-size
ceiling loop for the variant whose source is not present under src/. -/

/-- An uploaded file object: its full byte contents and the current read
position of the underlying stream.  Bytes are natural numbers below 256. -/
structure ByteStream where
  data : List Nat
  pos : Nat
deriving DecidableEq

/-- Reading the stream returns everything from the current position on. -/
def ByteStream.readAll (s : ByteStream) : List Nat :=
  s.data.drop s.pos

/-- Python `stream.seek(0)`: reset the read position to the start. -/
def ByteStream.seekStart (s : ByteStream) : ByteStream :=
  { s with pos := 0 }

/- ----------------------------------------------------------------
Base64 (Python base64.b64encode / b64decode on byte strings).
---------------------------------------------------------------- -/

/-- The standard base64 alphabet used by Python `base64.b64encode`. -/
def b64Table : List Char :=
  "ABCDEFGHIJKLMNOPQRSTUVWXYZabcdefghijklmnopqrstuvwxyz0123456789+/".data

/-- The character encoding a 6-bit group. -/
def b64Char (n : Nat) : Char :=
  b64Table.getD n 'A'

/-- Index of a character in a list, scanning left to right. -/
def lookupIdx : List Char → Char → Option Nat
  | [], _ => none
  | a :: as, c => if a = c then some 0 else (lookupIdx as c).map (· + 1)

/-- Base64 encoding of a byte list, three bytes to four characters, with
the standard `=` padding for a trailing group of one or two bytes. -/
def b64EncodeBytes : List Nat → List Char
  | [] => []
  | [a] => [b64Char (a / 4), b64Char (a % 4 * 16), '=', '=']
  | [a, b] => [b64Char (a / 4), b64Char (a % 4 * 16 + b / 16), b64Char (b % 16 * 4), '=']
  | a :: b :: c :: rest =>
      b64Char (a / 4) :: b64Char (a % 4 * 16 + b / 16) ::
        b64Char (b % 16 * 4 + c / 64) :: b64Char (c % 64) :: b64EncodeBytes rest

/-- Base64 decoding: four characters back to three bytes, honouring the
`=` padding conventions.  Returns `none` on a malformed payload. -/
def b64Decode : List Char → Option (List Nat)
  | [] => some []
  | w :: x :: y :: z :: rest =>
      match lookupIdx b64Table w, lookupIdx b64Table x with
      | some vw, some vx =>
          if y = '=' ∧ z = '=' ∧ rest = [] then
            some [vw * 4 + vx / 16]
          else
            match lookupIdx b64Table y with
            | some vy =>
                if z = '=' ∧ rest = [] then
                  some [vw * 4 + vx / 16, vx % 16 * 16 + vy / 4]
                else
                  match lookupIdx b64Table z with
                  | some vz =>
                      (b64Decode rest).map
                        (fun t => (vw * 4 + vx / 16) :: (vx % 16 * 16 + vy / 4) ::
                          (vy % 4 * 64 + vz) :: t)
                  | none => none
            | none => none
      | _, _ => none
  | _ => none

lemma lookupIdx_b64Char : ∀ n < 64, lookupIdx b64Table (b64Char n) = some n := by
  decide

lemma b64Char_ne_pad : ∀ n < 64, b64Char n ≠ '=' := by
  decide

/-- Decoding inverts encoding on genuine byte lists. -/
theorem b64Decode_b64EncodeBytes :
    ∀ l : List Nat, (∀ x ∈ l, x < 256) → b64Decode (b64EncodeBytes l) = some l := by
  intro l
  induction l using b64EncodeBytes.induct with
  | case1 =>
      intro _
      simp [b64EncodeBytes, b64Decode]
  | case2 a =>
      intro h
      have ha : a < 256 := h a (by simp)
      have h1 : a / 4 < 64 := by omega
      have h2 : a % 4 * 16 < 64 := by omega
      simp only [b64EncodeBytes, b64Decode, lookupIdx_b64Char _ h1, lookupIdx_b64Char _ h2]
      rw [if_pos (by simp)]
      simp only [Option.some.injEq, List.cons.injEq, and_true]
      omega
  | case3 a b =>
      intro h
      have ha : a < 256 := h a (by simp)
      have hb : b < 256 := h b (by simp)
      have h1 : a / 4 < 64 := by omega
      have h2 : a % 4 * 16 + b / 16 < 64 := by omega
      have h3 : b % 16 * 4 < 64 := by omega
      simp only [b64EncodeBytes, b64Decode, lookupIdx_b64Char _ h1, lookupIdx_b64Char _ h2,
        lookupIdx_b64Char _ h3]
      rw [if_neg (fun hcon => b64Char_ne_pad _ h3 hcon.1)]
      rw [if_pos (by simp)]
      simp only [Option.some.injEq, List.cons.injEq, and_true]
      omega
  | case4 a b c rest ih =>
      intro h
      have ha : a < 256 := h a (by simp)
      have hb : b < 256 := h b (by simp)
      have hc : c < 256 := h c (by simp)
      have h1 : a / 4 < 64 := by omega
      have h2 : a % 4 * 16 + b / 16 < 64 := by omega
      have h3 : b % 16 * 4 + c / 64 < 64 := by omega
      have h4 : c % 64 < 64 := by omega
      have hrest : ∀ x ∈ rest, x < 256 := fun x hx => h x (by simp [hx])
      simp only [b64EncodeBytes, b64Decode, lookupIdx_b64Char _ h1, lookupIdx_b64Char _ h2,
        lookupIdx_b64Char _ h3, lookupIdx_b64Char _ h4]
      rw [if_neg (fun hcon => b64Char_ne_pad _ h3 hcon.1)]
      rw [if_neg (fun hcon => b64Char_ne_pad _ h4 hcon.1)]
      rw [ih hrest]
      simp only [Option.map_some', Option.some.injEq, List.cons.injEq, and_true]
      omega

/- ----------------------------------------------------------------
Python string primitives, modelled on character lists:
str.split(sep), str.strip(), substring occurrence.
---------------------------------------------------------------- -/

lemma isPrefixOf_eq_true_iff (sep l : List Char) :
    sep.isPrefixOf l = true ↔ ∃ t, l = sep ++ t := by
  induction sep generalizing l with
  | nil => simp [List.isPrefixOf]
  | cons a as ih =>
      cases l with
      | nil => simp [List.isPrefixOf]
      | cons b bs =>
          simp only [List.isPrefixOf, Bool.and_eq_true, beq_iff_eq, ih, List.cons_append,
            List.cons.injEq]
          constructor
          · rintro ⟨rfl, t, rfl⟩
            exact ⟨t, rfl, rfl⟩
          · rintro ⟨t, rfl, rfl⟩
            exact ⟨rfl, t, rfl⟩

lemma isPrefixOf_take (sep l : List Char) :
    sep.isPrefixOf l = sep.isPrefixOf (l.take sep.length) := by
  induction sep generalizing l with
  | nil => simp [List.isPrefixOf]
  | cons a as ih =>
      cases l with
      | nil => simp
      | cons b bs => simp [List.isPrefixOf, ih bs]

/-- Position of the first occurrence of `sep` in a character list
(Python `str.find`), `none` when there is no occurrence. -/
def findMatch (sep : List Char) : List Char → Option Nat
  | [] => if sep = [] then some 0 else none
  | c :: rest =>
      if sep.isPrefixOf (c :: rest) then some 0 else (findMatch sep rest).map (· + 1)

lemma findMatch_le (sep : List Char) (hs : sep ≠ []) :
    ∀ t p, findMatch sep t = some p → p + sep.length ≤ t.length := by
  intro t
  induction t with
  | nil => intro p hp; simp [findMatch, hs] at hp
  | cons c rest ih =>
      intro p hp
      rw [findMatch] at hp
      by_cases hpre : sep.isPrefixOf (c :: rest) = true
      · rw [if_pos hpre] at hp
        obtain ⟨t, ht⟩ := (isPrefixOf_eq_true_iff sep (c :: rest)).mp hpre
        cases hp
        have := congrArg List.length ht
        simp only [List.length_cons, List.length_append] at this ⊢
        omega
      · rw [if_neg hpre] at hp
        cases hq : findMatch sep rest with
        | none => rw [hq] at hp; simp at hp
        | some q =>
            rw [hq] at hp
            simp only [Option.map_some', Option.some.injEq] at hp
            have := ih q hq
            simp only [List.length_cons]
            omega

/-- Python `str.split(sep)` for a non-empty separator: cut at every
occurrence of `sep`, keeping empty pieces.  For an empty separator the
result is the whole string (Python raises there; the branch is never
used by the embedded code, whose separators are non-empty literals). -/
def pySplit (sep : List Char) (t : List Char) : List (List Char) :=
  if hs : sep = [] then [t]
  else
    match hm : findMatch sep t with
    | none => [t]
    | some p => t.take p :: pySplit sep (t.drop (p + sep.length))
termination_by t.length
decreasing_by
  have hle := findMatch_le sep hs t p hm
  have hlen : 1 ≤ sep.length := by
    cases sep with
    | nil => exact absurd rfl hs
    | cons a as => simp
  simp only [List.length_drop]
  omega

/-- No occurrence of `sep` starts inside `s` when `s` is directly
followed by a copy of `sep` (rules out matches crossing the boundary). -/
def noMarkerIn (sep s : List Char) : Prop :=
  ∀ p < s.length, sep.isPrefixOf ((s ++ sep).drop p) = false

/-- No occurrence of `sep` starts anywhere inside `s`. -/
def noMarkerAt (sep s : List Char) : Prop :=
  ∀ p < s.length, sep.isPrefixOf (s.drop p) = false

lemma noMarkerIn_extend (sep s r : List Char) (h : noMarkerIn sep s) :
    ∀ p < s.length, sep.isPrefixOf ((s ++ (sep ++ r)).drop p) = false := by
  intro p hp
  have hassoc : s ++ (sep ++ r) = (s ++ sep) ++ r := (List.append_assoc s sep r).symm
  rw [hassoc, List.drop_append_eq_append_drop]
  have hdrop : p - (s ++ sep).length = 0 := by
    simp only [List.length_append]; omega
  rw [hdrop, List.drop_zero]
  rw [isPrefixOf_take, List.take_append_eq_append_take]
  have hlen : sep.length - ((s ++ sep).drop p).length = 0 := by
    simp only [List.length_drop, List.length_append]; omega
  rw [hlen, List.take_zero, List.append_nil, ← isPrefixOf_take]
  exact h p hp

lemma findMatch_append_sep (sep : List Char) (hs : sep ≠ []) (s r : List Char)
    (h : ∀ p < s.length, sep.isPrefixOf ((s ++ (sep ++ r)).drop p) = false) :
    findMatch sep (s ++ (sep ++ r)) = some s.length := by
  induction s with
  | nil =>
      simp only [List.nil_append, List.length_nil]
      cases sep with
      | nil => exact absurd rfl hs
      | cons a as =>
          rw [List.cons_append, findMatch]
          have hpre : (a :: as).isPrefixOf (a :: (as ++ r)) = true :=
            (isPrefixOf_eq_true_iff _ _).mpr ⟨r, rfl⟩
          rw [if_pos hpre]
  | cons c s' ih =>
      rw [List.cons_append, findMatch]
      have h0 : sep.isPrefixOf (c :: (s' ++ (sep ++ r))) = false := by
        have := h 0 (by simp)
        simpa using this
      rw [if_neg (by simp [h0])]
      have ih' : findMatch sep (s' ++ (sep ++ r)) = some s'.length := by
        apply ih
        intro p hp
        have := h (p + 1) (by simp; omega)
        rwa [List.cons_append, List.drop_succ_cons] at this
      rw [ih']
      simp

lemma findMatch_eq_none_of_noMarkerAt (sep : List Char) (hs : sep ≠ [])
    (s : List Char) (h : noMarkerAt sep s) : findMatch sep s = none := by
  induction s with
  | nil => simp [findMatch, hs]
  | cons c rest ih =>
      rw [findMatch]
      have h0 : sep.isPrefixOf (c :: rest) = false := by
        simpa using h 0 (by simp)
      rw [if_neg (by simp [h0])]
      have ih' : findMatch sep rest = none := by
        apply ih
        intro p hp
        have := h (p + 1) (by simp; omega)
        rwa [List.drop_succ_cons] at this
      rw [ih']
      rfl

lemma pySplit_eq_of_findMatch_some (sep t : List Char) (hs : sep ≠ []) (p : Nat)
    (hm : findMatch sep t = some p) :
    pySplit sep t = t.take p :: pySplit sep (t.drop (p + sep.length)) := by
  rw [pySplit, dif_neg hs]
  split
  · rename_i hnone
    rw [hm] at hnone
    cases hnone
  · rename_i q hq
    rw [hm] at hq
    cases hq
    rfl

lemma pySplit_eq_of_findMatch_none (sep t : List Char) (hs : sep ≠ [])
    (hm : findMatch sep t = none) : pySplit sep t = [t] := by
  rw [pySplit, dif_neg hs]
  split
  · rfl
  · rename_i q hq
    rw [hm] at hq
    cases hq

lemma pySplit_cons (sep : List Char) (hs : sep ≠ []) (s r : List Char)
    (h : ∀ p < s.length, sep.isPrefixOf ((s ++ (sep ++ r)).drop p) = false) :
    pySplit sep (s ++ (sep ++ r)) = s :: pySplit sep r := by
  have hm := findMatch_append_sep sep hs s r h
  rw [pySplit_eq_of_findMatch_some sep _ hs s.length hm]
  congr 1
  · exact List.take_left s (sep ++ r)
  · have hassoc : s ++ (sep ++ r) = (s ++ sep) ++ r := (List.append_assoc s sep r).symm
    have hlen : s.length + sep.length = (s ++ sep).length := (List.length_append s sep).symm
    rw [hassoc, hlen, List.drop_left]

lemma pySplit_single (sep : List Char) (hs : sep ≠ []) (s : List Char)
    (h : noMarkerAt sep s) : pySplit sep s = [s] :=
  pySplit_eq_of_findMatch_none sep s hs (findMatch_eq_none_of_noMarkerAt sep hs s h)

/-- Python `str.strip()`: drop leading and trailing whitespace. -/
def trimChars (l : List Char) : List Char :=
  ((l.dropWhile Char.isWhitespace).reverse.dropWhile Char.isWhitespace).reverse

/-- Python `str.strip()` at the string level. -/
def pyStrip (s : String) : String :=
  String.mk (trimChars s.data)

/-- Whether `n` occurs as a contiguous substring of the second list. -/
def occursB (n : List Char) : List Char → Bool
  | [] => n.isEmpty
  | c :: t => n.isPrefixOf (c :: t) || occursB n t

/-- `n` occurs verbatim, unescaped and unmodified, inside `h`. -/
def containsStr (n h : List Char) : Prop :=
  ∃ p q, h = p ++ n ++ q

lemma containsStr_iff_occursB (n h : List Char) :
    containsStr n h ↔ occursB n h = true := by
  constructor
  · rintro ⟨p, q, rfl⟩
    induction p with
    | nil =>
        cases hn : n ++ q with
        | nil =>
            obtain ⟨hn1, hn2⟩ := List.append_eq_nil.mp hn
            subst hn1
            subst hn2
            simp [occursB, List.isEmpty]
        | cons c t =>
            rw [List.nil_append, hn]
            simp only [occursB, Bool.or_eq_true]
            left
            exact (isPrefixOf_eq_true_iff _ _).mpr ⟨q, hn.symm⟩
    | cons c p' ih =>
        rw [List.cons_append]
        simp only [occursB, Bool.or_eq_true]
        right
        exact ih
  · intro hocc
    induction h with
    | nil =>
        simp only [occursB] at hocc
        have : n = [] := by
          cases n with
          | nil => rfl
          | cons a as => simp [List.isEmpty] at hocc
        exact ⟨[], [], by simp [this]⟩
    | cons c t ih =>
        simp only [occursB, Bool.or_eq_true] at hocc
        cases hocc with
        | inl hpre =>
            obtain ⟨s, hsuf⟩ := (isPrefixOf_eq_true_iff _ _).mp hpre
            exact ⟨[], s, by simp [hsuf]⟩
        | inr hrest =>
            obtain ⟨p, q, hpq⟩ := ih hrest
            exact ⟨c :: p, q, by simp [hpq]⟩

instance decidableContainsStr (n h : List Char) : Decidable (containsStr n h) :=
  decidable_of_iff (occursB n h = true) (containsStr_iff_occursB n h).symm

/- ----------------------------------------------------------------
The external imaging library (PIL), modelled abstractly.
---------------------------------------------------------------- -/

/-- Abstract model of the imaging library used by `image_to_data_url`:
`decode` is `Image.open` on the bytes readable from the stream
(returning `none` where PIL raises, the `DecodeError` case), `toRGB` is
`convert("RGB")` and `encodeJPEG` is `save(buffer, format="JPEG")` at
the default quality. -/
structure ImagingModel (Img : Type) where
  decode : List Nat → Option Img
  toRGB : Img → Img
  encodeJPEG : Img → List Nat

/-- src/recipe.py `image_to_data_url` (lines 50-56): decode the uploaded
file from its current stream position, convert to RGB, re-encode as
JPEG, base64 the bytes and wrap them in a data URL.  The function does
not seek the stream; it reads from wherever the position currently is. -/
def image_to_data_url {Img : Type} (M : ImagingModel Img) (image_file : ByteStream) :
    Option String :=
  (M.decode image_file.readAll).map fun image =>
    "data:image/jpeg;base64," ++ String.mk (b64EncodeBytes (M.encodeJPEG (M.toRGB image)))

/- ----------------------------------------------------------------
Chat messages and the two ingredient-detection functions.
---------------------------------------------------------------- -/

/-- One part of a chat message: plain text, an image data URL
(src/recipe.py transport) or raw image bytes (src/recip.py transport). -/
inductive ContentPart
  | textPart (s : String)
  | imageUrl (url : String)
  | imageBytes (bytes : List Nat)
deriving DecidableEq

/-- A role-tagged chat message with mixed content parts. -/
structure ChatMsg where
  role : String
  parts : List ContentPart
deriving DecidableEq

/-- The system instruction of src/recipe.py `detect_ingredients`. -/
def detectSystemText : String :=
  "You are a food recognition assistant. Look at the image and identify the main edible ingredients. Ignore small decorative or natural parts such as leaves, stems, peels, or shadows if they are part of the same fruit or vegetable. List only the distinct food ingredients as bullet points. If unsure, say \x27unsure\x27."

/-- The message list sent by src/recipe.py `detect_ingredients`. -/
def detectMessages (data_url : String) : List ChatMsg :=
  [ { role := "system", parts := [ContentPart.textPart detectSystemText] },
    { role := "user",
      parts := [ContentPart.textPart "What ingredient or ingredients do you see in this image? List them clearly.",
                ContentPart.imageUrl data_url] } ]

/-- src/recipe.py `detect_ingredients` (lines 59-91): send the fixed
messages, return `content.strip()` of the response.  The model call is a
parameter; `Except.error` models `ModelCallError` propagating out. -/
def detect_ingredients (callModel : List ChatMsg → Except String String)
    (data_url : String) : Except String String :=
  (callModel (detectMessages data_url)).map pyStrip

/-- The system instruction of src/recip.py `detect_ingredients_chain`. -/
def chainSystemText : String :=
  "You are a food recognition assistant. Identify main edible ingredients. Ignore leaves, stems, or peels that are part of the same item. List distinct ingredients as bullet points. If unsure, say \x27unsure\x27."

/-- The message list sent by src/recip.py `detect_ingredients_chain`;
the image travels as raw bytes read from the stream. -/
def detectChainMessages (image_bytes : List Nat) : List ChatMsg :=
  [ { role := "system", parts := [ContentPart.textPart chainSystemText] },
    { role := "user",
      parts := [ContentPart.textPart "What ingredients do you see in this image?",
                ContentPart.imageBytes image_bytes] } ]

/-- src/recip.py `detect_ingredients_chain` (lines 44-58): reads the
stream from its current position (`image_file.read()`), sends the
messages and returns `response.content.strip()`. -/
def detect_ingredients_chain (invokeModel : List ChatMsg → Except String String)
    (image_file : ByteStream) : Except String String :=
  (invokeModel (detectChainMessages image_file.readAll)).map pyStrip

/- ----------------------------------------------------------------
Recipe-generation prompts (transcribed from the source f-strings).
---------------------------------------------------------------- -/

/-- Template text of src/recipe.py `recommend_recipes` before the
ingredients interpolation point. -/
def recommendPromptHeader : String :=
  "\nYou are a professional chef and recipe generator.\n\nDetected ingredients (reference list):\n"

/-- Template text between the ingredients and the cuisine field. -/
def recommendPromptMid1 : String :=
  "\n\nUser preferences:\n- Preferred cuisine: "

/-- Template text between the cuisine and the allergies field. -/
def recommendPromptMid2 : String :=
  "\n- Allergies (must avoid): "

/-- Template text between the allergies and the taste field. -/
def recommendPromptMid3 : String :=
  "\n- Taste preference: "

/-- Template text of src/recipe.py `recommend_recipes` after the taste
interpolation point. -/
def recommendPromptTail : String :=
  "\n\nTask:\nRecommend 3 recipes that:\n- Use mainly the detected ingredients\n- Respect the allergies and avoid them completely\n- Match the cuisine and taste preference as much as possible\n\nRules for formatting:\n1. Any ingredient in your recipe that is NOT present in the detected ingredients list must have a * directly after it.\n   Example: “1 tsp salt*”\n2. At the end of the entire output, add a short note:\n   “*Ingredients marked with * are not detected in the image and can be ordered from HungerStation Market.”\n\nOutput format:\n\n### 1. Recipe Name\n- one word 3 tags (for example #salty, #italian)\n- Short description (1–2 sentences)\n- Key ingredients (bullet list with quantities)\n- Steps (3–6 short steps)\n\nUse clear markdown formatting.\n"

/-- The f-string prompt of src/recipe.py `recommend_recipes` (lines
96-128): the three preference fields and the detected-ingredients text
are interpolated directly, with no escaping. -/
def recommendPrompt (ingredients_text cuisine allergies taste : String) : String :=
  recommendPromptHeader ++ ingredients_text ++ recommendPromptMid1 ++ cuisine ++
    recommendPromptMid2 ++ allergies ++ recommendPromptMid3 ++ taste ++ recommendPromptTail

/-- src/recipe.py `recommend_recipes` (lines 94-137): build the prompt,
send it with the fixed system message, return `content.strip()`. -/
def recommend_recipes (callModel : List ChatMsg → Except String String)
    (ingredients_text cuisine allergies taste : String) : Except String String :=
  (callModel
    [ { role := "system", parts := [ContentPart.textPart "You generate safe, clear cooking recipes."] },
      { role := "user",
        parts := [ContentPart.textPart (recommendPrompt ingredients_text cuisine allergies taste)] } ]).map
    pyStrip

/-- Template text of the src/recip.py `recipe_prompt` user message up to
the ingredients slot. -/
def recipeChainHeader : String :=
  "\nDetected ingredients (reference list):\n"

/-- Template text between the ingredients and cuisine slots. -/
def recipeChainMid1 : String :=
  "\n\nUser preferences:\n- Cuisine: "

/-- Template text between the cuisine and allergies slots. -/
def recipeChainMid2 : String :=
  "\n- Allergies: "

/-- Template text between the allergies and taste slots. -/
def recipeChainMid3 : String :=
  "\n- Taste: "

/-- Template text of the src/recip.py `recipe_prompt` user message after
the taste slot. -/
def recipeChainTail : String :=
  "\n\nGenerate 3 recipes:\n- Use mostly detected ingredients.\n- Avoid allergic ingredients.\n- Match cuisine/taste preferences.\nRules:\n1. Mark any ingredient NOT found in detected list with a *.\n2. End with this note:\n   \"*Ingredients marked with * are not detected in the image and can be ordered from HungerStation Market.\"\n\nOutput format:\n### 1. Recipe Name\n- 3 tags (#italian, #salty, etc.)\n- Short description (1–2 sentences)\n- Key ingredients (with quantities)\n- Steps (3–6 short steps)\n"

/-- The formatted user message of src/recip.py `recipe_prompt` (lines
64-91): template placeholders are replaced by the given values, which
`str.format` splices in verbatim without reprocessing or escaping. -/
def recipeChainPrompt (ingredients cuisine allergies taste : String) : String :=
  recipeChainHeader ++ ingredients ++ recipeChainMid1 ++ cuisine ++
    recipeChainMid2 ++ allergies ++ recipeChainMid3 ++ taste ++ recipeChainTail

/-- src/recip.py `recipe_chain` (lines 93-101): format the prompt, send
it with the fixed system message, return `response.content.strip()`. -/
def recipe_chain (invokeModel : List ChatMsg → Except String String)
    (ingredients cuisine allergies taste : String) : Except String String :=
  (invokeModel
    [ { role := "system", parts := [ContentPart.textPart "You are a professional chef and recipe generator."] },
      { role := "user",
        parts := [ContentPart.textPart (recipeChainPrompt ingredients cuisine allergies taste)] } ]).map
    pyStrip

/- ----------------------------------------------------------------
Recipe list parsing and the recommendation tool (src/recip.py).
---------------------------------------------------------------- -/

/-- src/recip.py line 151:
`[r.strip() for r in recipes_text.split("### ") if r.strip()]`. -/
def recipe_list (recipes_text : List Char) : List (List Char) :=
  (pySplit "### ".data recipes_text).filterMap fun r =>
    if trimChars r = [] then none else some (trimChars r)

/-- src/recip.py `recommend_similar_recipe` (lines 107-114): two
hardcoded templated sentences joined with a newline; a pure function,
no model call. -/
def recommend_similar_recipe (selected_recipe : String) : String :=
  ("If you liked " ++ selected_recipe ++ ", try making a healthier version with less oil.") ++
    "\n" ++ "Or try a variation using seasonal vegetables or different spices!"

/- ----------------------------------------------------------------
Top-level request handlers and the error taxonomy.
---------------------------------------------------------------- -/

/-- The error taxonomy of the spec: an unreadable image or a failed
external model call.  Each carries the exception text that Python would
interpolate into the user-visible message. -/
inductive StepError
  | decodeError (msg : String)
  | modelCallError (msg : String)
deriving DecidableEq

/-- Python `str(e)` for an exception of either kind. -/
def StepError.text : StepError → String
  | .decodeError m => m
  | .modelCallError m => m

/-- What the presentation layer ends up displaying: either the results
of a successful run or a single error banner.  There is no constructor
for a propagated exception: the handler catches everything. -/
inductive UIOutcome
  | success (ingredients recipes : String)
  | errorShown (msg : String)
deriving DecidableEq

/-- src/recipe.py main action button handler (lines 142-170): the try
body runs normalization, detection and recommendation in sequence; any
`Exception` is caught once by the single `except` and shown as
`st.error(f"Something went wrong: {e}")`.  The result also carries how
many detection and recommendation model calls were made. -/
def runMainHandler (normalizeStep : Except StepError String)
    (detectStep : String → Except StepError String)
    (recommendStep : String → Except StepError String) : UIOutcome × Nat × Nat :=
  match normalizeStep with
  | .error e => (.errorShown ("Something went wrong: " ++ e.text), 0, 0)
  | .ok data_url =>
      match detectStep data_url with
      | .error e => (.errorShown ("Something went wrong: " ++ e.text), 1, 0)
      | .ok ingredients_text =>
          match recommendStep ingredients_text with
          | .error e => (.errorShown ("Something went wrong: " ++ e.text), 1, 1)
          | .ok recipes_markdown => (.success ingredients_text recipes_markdown, 1, 1)

/-- Specification-side description of the pipeline: the first error any
step raises, if any. -/
def pipelineFirstError (normalizeStep : Except StepError String)
    (detectStep recommendStep : String → Except StepError String) : Option StepError :=
  match normalizeStep with
  | .error e => some e
  | .ok data_url =>
      match detectStep data_url with
      | .error e => some e
      | .ok ingredients_text =>
          match recommendStep ingredients_text with
          | .error e => some e
          | .ok _ => none

/-- What the src/recip.py flow displays on completion. -/
inductive FlowOutcome
  | shown (ingredients recipes : String) (agentOut : Option String)
  | errorShown (msg : String)
deriving DecidableEq

/-- src/recip.py main flow button handler (lines 128-167): seek the
stream to its start, detect ingredients from the raw bytes, generate
recipes, split them into titles, and (when the inner button is pressed)
invoke the agent; the whole body sits in one try/except that shows
`st.error(f"Something went wrong: {e}")`.  `pick` models the radio
selection among the titles; the three counters are the numbers of
detection, recipe and agent model calls. -/
def runFlowHandler (uploaded_file : ByteStream)
    (detectStep : List Nat → Except StepError String)
    (recipeStep : String → Except StepError String)
    (agentStep : String → Except StepError String)
    (pick : List (List Char) → List Char)
    (innerPressed : Bool) : FlowOutcome × Nat × Nat × Nat :=
  match detectStep ((uploaded_file.seekStart).readAll) with
  | .error e => (.errorShown ("Something went wrong: " ++ e.text), 1, 0, 0)
  | .ok ingredients_text =>
      match recipeStep ingredients_text with
      | .error e => (.errorShown ("Something went wrong: " ++ e.text), 1, 1, 0)
      | .ok recipes_text =>
          let recipe_titles :=
            ((recipe_list recipes_text.data).take 3).map fun r => r.takeWhile (· ≠ '\n')
          let fav := String.mk (pick recipe_titles)
          if innerPressed then
            match agentStep ("The user liked " ++ fav ++ ". Recommend similar recipes.") with
            | .error e => (.errorShown ("Something went wrong: " ++ e.text), 1, 1, 1)
            | .ok agent_out => (.shown ingredients_text recipes_text (some agent_out), 1, 1, 1)
          else
            (.shown ingredients_text recipes_text none, 1, 1, 0)

/- ----------------------------------------------------------------
The size-ceiling normalize of the third variant, modelled from the
spec (its source file is not present under src/).
---------------------------------------------------------------- -/

/-- Modelled from the spec: the iterative quality-reduction loop of the
missing size-ceiling `normalize` variant (spec section 4.1): encode at
quality `q`; while the byte length exceeds `byteCeiling` and the quality
is above `minQuality`, decrement the quality by the fixed `step`
(clamping at the floor) and re-encode; the loop stops unconditionally at
the floor even if still oversized.  Returns the final quality together
with the number of re-encode iterations performed.  A zero `step` is
outside the spec (the step is a fixed positive constant); the guard
makes the function total there. -/
def qualityLoop (encSize : Nat → Nat) (byteCeiling minQuality step : Nat) (q : Nat) :
    Nat × Nat :=
  if h : encSize q ≤ byteCeiling ∨ q ≤ minQuality ∨ step = 0 then (q, 0)
  else
    ((qualityLoop encSize byteCeiling minQuality step (max minQuality (q - step))).1,
      (qualityLoop encSize byteCeiling minQuality step (max minQuality (q - step))).2 + 1)
termination_by q
decreasing_by
  push_neg at h
  obtain ⟨h1, h2, h3⟩ := h
  have hq : 0 < q := Nat.lt_of_le_of_lt (Nat.zero_le _) h2
  exact max_lt h2 (Nat.sub_lt hq (Nat.pos_of_ne_zero h3))

/-- Modelled from the spec: the imaging primitives the size-ceiling
variant needs; `thumbnail` is the aspect-preserving shrink to the max
dimension and `encodeAt` the lossy JPEG encoder at a given quality. -/
structure SpecImaging (Img : Type) where
  decode : List Nat → Option Img
  toRGB : Img → Img
  thumbnail : Img → Nat → Img
  encodeAt : Img → Nat → List Nat

/-- Modelled from the spec: the configuration of `normalize`
(spec section 4.1). -/
structure NormalizeConfig where
  maxDimension : Option Nat
  initialQuality : Nat
  byteCeiling : Nat
  minQuality : Nat
  step : Nat

/-- Modelled from the spec: color conversion followed by the optional
max-dimension shrink. -/
def preprocess {Img : Type} (M : SpecImaging Img) (cfg : NormalizeConfig) (img : Img) : Img :=
  match cfg.maxDimension with
  | some d => M.thumbnail (M.toRGB img) d
  | none => M.toRGB img

/-- Modelled from the spec: `normalize(rawImage, maxDimension,
initialQuality, byteCeiling, minQuality)` of the missing variant: seek
the stream to its start, decode (`none` is the `DecodeError` case),
convert and shrink, run the quality loop, base64 the final bytes and
wrap them as a data URL. -/
def spec_normalize {Img : Type} (M : SpecImaging Img) (cfg : NormalizeConfig)
    (s : ByteStream) : Option String :=
  (M.decode ((s.seekStart).readAll)).map fun raw =>
    let img := preprocess M cfg raw
    let q := (qualityLoop (fun qq => (M.encodeAt img qq).length)
      cfg.byteCeiling cfg.minQuality cfg.step cfg.initialQuality).1
    "data:image/jpeg;base64," ++ String.mk (b64EncodeBytes (M.encodeAt img q))

/-- The quality loop ends at a quality meeting the byte ceiling or at
the floor, never below the floor, and re-encodes at most
`⌈(q - minQuality) / step⌉` times. -/
theorem qualityLoop_spec (encSize : Nat → Nat) (byteCeiling minQuality step : Nat)
    (hstep : 0 < step) :
    ∀ q, minQuality ≤ q →
      (encSize (qualityLoop encSize byteCeiling minQuality step q).1 ≤ byteCeiling ∨
        (qualityLoop encSize byteCeiling minQuality step q).1 = minQuality) ∧
      (qualityLoop encSize byteCeiling minQuality step q).2 ≤
        (q - minQuality + step - 1) / step := by
  intro q
  induction q using Nat.strong_induction_on with
  | _ q ih =>
      intro hq
      rw [qualityLoop]
      by_cases hguard : encSize q ≤ byteCeiling ∨ q ≤ minQuality ∨ step = 0
      · rw [dif_pos hguard]
        rcases hguard with hg | hg | hg
        · exact ⟨Or.inl hg, Nat.zero_le _⟩
        · exact ⟨Or.inr (Nat.le_antisymm hg hq), Nat.zero_le _⟩
        · omega
      · rw [dif_neg hguard]
        push_neg at hguard
        obtain ⟨hover, h2, _⟩ := hguard
        have hlt : max minQuality (q - step) < q :=
          max_lt h2 (Nat.sub_lt (Nat.lt_of_le_of_lt (Nat.zero_le _) h2) hstep)
        have hge : minQuality ≤ max minQuality (q - step) := le_max_left _ _
        obtain ⟨hpost, hcount⟩ := ih (max minQuality (q - step)) hlt hge
        constructor
        · exact hpost
        · show (qualityLoop encSize byteCeiling minQuality step
            (max minQuality (q - step))).2 + 1 ≤ (q - minQuality + step - 1) / step
          rcases le_or_lt (q - step) minQuality with hcase | hcase
          · have hmax : max minQuality (q - step) = minQuality := max_eq_left hcase
            rw [hmax] at hcount ⊢
            have hzero : (minQuality - minQuality + step - 1) / step = 0 := by
              rw [Nat.sub_self, Nat.zero_add]
              exact Nat.div_eq_of_lt (by omega)
            rw [hzero, Nat.le_zero] at hcount
            have hone : 1 ≤ (q - minQuality + step - 1) / step :=
              (Nat.le_div_iff_mul_le hstep).mpr (by omega : 1 * step ≤ q - minQuality + step - 1)
            omega
          · have hmax : max minQuality (q - step) = q - step := max_eq_right (le_of_lt hcase)
            rw [hmax] at hcount ⊢
            have heq : (q - step - minQuality + step - 1) / step + 1 =
                (q - minQuality + step - 1) / step := by
              have e1 : q - step - minQuality + step - 1 = q - minQuality - 1 := by omega
              have e2 : q - minQuality + step - 1 = q - minQuality - 1 + step := by omega
              rw [e1, e2, Nat.add_div_right _ hstep]
            omega

/- ----------------------------------------------------------------
Shared helpers and concrete models for the closed witnesses.
---------------------------------------------------------------- -/

lemma string_data_append (a b : String) : (a ++ b).data = a.data ++ b.data := rfl

instance (sep s : List Char) : Decidable (noMarkerIn sep s) :=
  inferInstanceAs (Decidable (∀ p < s.length, sep.isPrefixOf ((s ++ sep).drop p) = false))

instance (sep s : List Char) : Decidable (noMarkerAt sep s) :=
  inferInstanceAs (Decidable (∀ p < s.length, sep.isPrefixOf (s.drop p) = false))

/-- A small concrete imaging library used by the closed witnesses: it
fails on an empty byte string (as PIL does) and otherwise keeps the
bytes as the decoded image; conversion and re-encoding return them
unchanged. -/
def exImaging : ImagingModel (List Nat) where
  decode := fun bs => if bs = [] then none else some bs
  toRGB := fun i => i
  encodeJPEG := fun i => i

/-- A small concrete imaging library for the spec-modelled normalize
witness: encoding at quality `q` produces `q` bytes. -/
def c1Imaging : SpecImaging Unit where
  decode := fun _ => some ()
  toRGB := fun i => i
  thumbnail := fun i _ => i
  encodeAt := fun _ q => List.replicate q 0

/-- Witness configuration for the spec-modelled normalize. -/
def c1Config : NormalizeConfig :=
  { maxDimension := some 256, initialQuality := 9, byteCeiling := 5, minQuality := 2, step := 3 }

/- ----------------------------------------------------------------
Claim theorems.
---------------------------------------------------------------- -/

/-- Claim C1: for every valid raster image input and configuration (with
the positive fixed step and a floor at most the initial quality the spec
assumes), the spec-modelled `normalize` returns a payload whose
re-encoded byte size is at most `byteCeiling`, or one produced at
quality `minQuality`, reached by decrementing the quality by the fixed
step per re-encode, in at most
`(initialQuality - minQuality) / step + 1` re-encode iterations. -/
theorem normalize_size_ceiling {Img : Type} (M : SpecImaging Img) (cfg : NormalizeConfig)
    (s : ByteStream) (raw : Img)
    (hdec : M.decode ((s.seekStart).readAll) = some raw)
    (hstep : 0 < cfg.step) (hq : cfg.minQuality ≤ cfg.initialQuality) :
    ∃ q iters,
      qualityLoop (fun qq => (M.encodeAt (preprocess M cfg raw) qq).length)
          cfg.byteCeiling cfg.minQuality cfg.step cfg.initialQuality = (q, iters) ∧
      spec_normalize M cfg s = some ("data:image/jpeg;base64," ++
        String.mk (b64EncodeBytes (M.encodeAt (preprocess M cfg raw) q))) ∧
      ((M.encodeAt (preprocess M cfg raw) q).length ≤ cfg.byteCeiling ∨ q = cfg.minQuality) ∧
      iters ≤ (cfg.initialQuality - cfg.minQuality) / cfg.step + 1 := by
  obtain ⟨hpost, hcount⟩ :=
    qualityLoop_spec (fun qq => (M.encodeAt (preprocess M cfg raw) qq).length)
      cfg.byteCeiling cfg.minQuality cfg.step hstep cfg.initialQuality hq
  refine ⟨_, _, rfl, ?_, hpost, ?_⟩
  · simp [spec_normalize, hdec]
  · have hle : cfg.initialQuality - cfg.minQuality + cfg.step - 1 ≤
        cfg.initialQuality - cfg.minQuality + cfg.step := by omega
    have hmono : (cfg.initialQuality - cfg.minQuality + cfg.step - 1) / cfg.step ≤
        (cfg.initialQuality - cfg.minQuality + cfg.step) / cfg.step :=
      Nat.div_le_div_right hle
    rw [Nat.add_div_right _ hstep] at hmono
    omega

/-- Closed witness for C1 at a concrete imaging model, configuration and
stream: quality 9 steps down 9 → 6 → 3 in two re-encodes and meets the
5-byte ceiling. -/
theorem normalize_size_ceiling_witness :
    0 < c1Config.step ∧ c1Config.minQuality ≤ c1Config.initialQuality ∧
    ∃ q iters,
      qualityLoop (fun qq => (c1Imaging.encodeAt (preprocess c1Imaging c1Config ()) qq).length)
          c1Config.byteCeiling c1Config.minQuality c1Config.step c1Config.initialQuality =
        (q, iters) ∧
      spec_normalize c1Imaging c1Config ⟨[1, 2, 3], 0⟩ = some ("data:image/jpeg;base64," ++
        String.mk (b64EncodeBytes (c1Imaging.encodeAt (preprocess c1Imaging c1Config ()) q))) ∧
      ((c1Imaging.encodeAt (preprocess c1Imaging c1Config ()) q).length ≤ c1Config.byteCeiling ∨
        q = c1Config.minQuality) ∧
      iters ≤ (c1Config.initialQuality - c1Config.minQuality) / c1Config.step + 1 :=
  ⟨by decide, by decide,
    normalize_size_ceiling c1Imaging c1Config ⟨[1, 2, 3], 0⟩ () rfl (by decide) (by decide)⟩

/-- Claim C2: `image_to_data_url` is deterministic; its output is a
function of the bytes read from the stream and the imaging library
alone, so identical input bytes give byte-identical output strings. -/
theorem image_to_data_url_deterministic {Img : Type} (M : ImagingModel Img)
    (s1 s2 : ByteStream) (h : s1.readAll = s2.readAll) :
    image_to_data_url M s1 = image_to_data_url M s2 := by
  unfold image_to_data_url
  rw [h]

/-- Closed witness for C2: two distinct stream objects carrying the same
readable bytes produce the same data URL. -/
theorem image_to_data_url_deterministic_witness :
    ByteStream.readAll ⟨[5, 6, 7], 1⟩ = ByteStream.readAll ⟨[9, 6, 7], 1⟩ ∧
    image_to_data_url exImaging ⟨[5, 6, 7], 1⟩ = image_to_data_url exImaging ⟨[9, 6, 7], 1⟩ :=
  ⟨by decide,
    image_to_data_url_deterministic exImaging ⟨[5, 6, 7], 1⟩ ⟨[9, 6, 7], 1⟩ (by decide)⟩

/-- Claim C3: on every decodable input, `image_to_data_url` returns a
string of the exact shape `data:<mime>;base64,<payload>`, the payload
base64-decodes back to the re-encoded JPEG bytes, and (under the
standard assumption that the imaging library can decode its own encoder
output) those bytes decode as a valid image. -/
theorem image_to_data_url_round_trip {Img : Type} (M : ImagingModel Img)
    (s : ByteStream) (img : Img)
    (hdec : M.decode s.readAll = some img)
    (hbytes : ∀ x ∈ M.encodeJPEG (M.toRGB img), x < 256)
    (hlib : ∃ img2, M.decode (M.encodeJPEG (M.toRGB img)) = some img2) :
    ∃ payload : List Char,
      image_to_data_url M s = some ("data:image/jpeg;base64," ++ String.mk payload) ∧
      b64Decode payload = some (M.encodeJPEG (M.toRGB img)) ∧
      ∃ img2, M.decode (M.encodeJPEG (M.toRGB img)) = some img2 := by
  refine ⟨b64EncodeBytes (M.encodeJPEG (M.toRGB img)), ?_,
    b64Decode_b64EncodeBytes _ hbytes, hlib⟩
  simp [image_to_data_url, hdec]

/-- Closed witness for C3 at the concrete imaging model and the
two-byte input `[1, 2]`. -/
theorem image_to_data_url_round_trip_witness :
    ∃ payload : List Char,
      image_to_data_url exImaging ⟨[1, 2], 0⟩ =
        some ("data:image/jpeg;base64," ++ String.mk payload) ∧
      b64Decode payload = some (exImaging.encodeJPEG (exImaging.toRGB [1, 2])) ∧
      ∃ img2, exImaging.decode (exImaging.encodeJPEG (exImaging.toRGB [1, 2])) = some img2 :=
  image_to_data_url_round_trip exImaging ⟨[1, 2], 0⟩ [1, 2] (by decide) (by decide)
    ⟨[1, 2], by decide⟩

/-- Claim C4: both ingredient-detection functions return exactly the
model's text content with surrounding whitespace stripped and apply no
other transformation, validation or parsing; in particular a model
response of "unsure" yields the exact string "unsure" and no exception
(modelled by `Except.ok`). -/
theorem detect_ingredients_strips_only
    (callModel invokeModel : List ChatMsg → Except String String)
    (data_url : String) (image_file : ByteStream) (r1 r2 : String)
    (h1 : callModel (detectMessages data_url) = Except.ok r1)
    (h2 : invokeModel (detectChainMessages image_file.readAll) = Except.ok r2) :
    detect_ingredients callModel data_url = Except.ok (pyStrip r1) ∧
    detect_ingredients_chain invokeModel image_file = Except.ok (pyStrip r2) ∧
    (r1 = "unsure" → detect_ingredients callModel data_url = Except.ok "unsure") := by
  refine ⟨?_, ?_, ?_⟩
  · unfold detect_ingredients
    rw [h1]
    rfl
  · unfold detect_ingredients_chain
    rw [h2]
    rfl
  · intro hr
    subst hr
    have hu : pyStrip "unsure" = "unsure" := by decide
    unfold detect_ingredients
    rw [h1]
    exact congrArg Except.ok hu

/-- Closed witness for C4 with stub models returning "unsure" and a
padded bullet line. -/
theorem detect_ingredients_strips_only_witness :
    detect_ingredients (fun _ => Except.ok "unsure") "url" = Except.ok (pyStrip "unsure") ∧
    detect_ingredients_chain (fun _ => Except.ok " - egg \n") ⟨[1], 0⟩ =
      Except.ok (pyStrip " - egg \n") ∧
    ("unsure" = "unsure" →
      detect_ingredients (fun _ => Except.ok "unsure") "url" = Except.ok "unsure") :=
  detect_ingredients_strips_only (fun _ => Except.ok "unsure")
    (fun _ => Except.ok " - egg \n") "url" ⟨[1], 0⟩ "unsure" " - egg \n" rfl rfl

/-- Claim C5: the prompts built by both recipe composers contain the
ingredients text and each of the three preference strings verbatim, with
no escaping or sanitization; with an empty allergy string and cuisine
"Any" the prompt contains the literal ingredients text unmodified and
nothing between the empty allergy field and the following preference
line. -/
theorem prompts_interpolate_verbatim (ing cu al ta : String) :
    (containsStr ing.data (recommendPrompt ing cu al ta).data ∧
      containsStr cu.data (recommendPrompt ing cu al ta).data ∧
      containsStr al.data (recommendPrompt ing cu al ta).data ∧
      containsStr ta.data (recommendPrompt ing cu al ta).data) ∧
    (containsStr ing.data (recipeChainPrompt ing cu al ta).data ∧
      containsStr cu.data (recipeChainPrompt ing cu al ta).data ∧
      containsStr al.data (recipeChainPrompt ing cu al ta).data ∧
      containsStr ta.data (recipeChainPrompt ing cu al ta).data) ∧
    (al = "" → cu = "Any" →
      containsStr ing.data (recommendPrompt ing cu al ta).data ∧
      containsStr (recommendPromptMid2 ++ recommendPromptMid3).data
        (recommendPrompt ing cu al ta).data) := by
  refine ⟨⟨?_, ?_, ?_, ?_⟩, ⟨?_, ?_, ?_, ?_⟩, ?_⟩
  · exact ⟨recommendPromptHeader.data,
      (recommendPromptMid1 ++ cu ++ recommendPromptMid2 ++ al ++ recommendPromptMid3 ++ ta ++
        recommendPromptTail).data,
      by simp [recommendPrompt, string_data_append, List.append_assoc]⟩
  · exact ⟨(recommendPromptHeader ++ ing ++ recommendPromptMid1).data,
      (recommendPromptMid2 ++ al ++ recommendPromptMid3 ++ ta ++ recommendPromptTail).data,
      by simp [recommendPrompt, string_data_append, List.append_assoc]⟩
  · exact ⟨(recommendPromptHeader ++ ing ++ recommendPromptMid1 ++ cu ++
      recommendPromptMid2).data,
      (recommendPromptMid3 ++ ta ++ recommendPromptTail).data,
      by simp [recommendPrompt, string_data_append, List.append_assoc]⟩
  · exact ⟨(recommendPromptHeader ++ ing ++ recommendPromptMid1 ++ cu ++
      recommendPromptMid2 ++ al ++ recommendPromptMid3).data,
      recommendPromptTail.data,
      by simp [recommendPrompt, string_data_append, List.append_assoc]⟩
  · exact ⟨recipeChainHeader.data,
      (recipeChainMid1 ++ cu ++ recipeChainMid2 ++ al ++ recipeChainMid3 ++ ta ++
        recipeChainTail).data,
      by simp [recipeChainPrompt, string_data_append, List.append_assoc]⟩
  · exact ⟨(recipeChainHeader ++ ing ++ recipeChainMid1).data,
      (recipeChainMid2 ++ al ++ recipeChainMid3 ++ ta ++ recipeChainTail).data,
      by simp [recipeChainPrompt, string_data_append, List.append_assoc]⟩
  · exact ⟨(recipeChainHeader ++ ing ++ recipeChainMid1 ++ cu ++ recipeChainMid2).data,
      (recipeChainMid3 ++ ta ++ recipeChainTail).data,
      by simp [recipeChainPrompt, string_data_append, List.append_assoc]⟩
  · exact ⟨(recipeChainHeader ++ ing ++ recipeChainMid1 ++ cu ++ recipeChainMid2 ++ al ++
      recipeChainMid3).data,
      recipeChainTail.data,
      by simp [recipeChainPrompt, string_data_append, List.append_assoc]⟩
  · intro hal hcu
    subst hal
    subst hcu
    constructor
    · exact ⟨recommendPromptHeader.data,
        (recommendPromptMid1 ++ "Any" ++ recommendPromptMid2 ++ "" ++ recommendPromptMid3 ++
          ta ++ recommendPromptTail).data,
        by simp [recommendPrompt, string_data_append, List.append_assoc]⟩
    · exact ⟨(recommendPromptHeader ++ ing ++ recommendPromptMid1 ++ "Any").data,
        (ta ++ recommendPromptTail).data,
        by simp [recommendPrompt, string_data_append, List.append_assoc]⟩

/-- Closed witness for C5: the empty-allergy, cuisine-"Any" scenario at
a concrete ingredients text. -/
theorem prompts_interpolate_verbatim_witness :
    containsStr "- tomato\n- basil".data
      (recommendPrompt "- tomato\n- basil" "Any" "" "Salty").data ∧
    containsStr (recommendPromptMid2 ++ recommendPromptMid3).data
      (recommendPrompt "- tomato\n- basil" "Any" "" "Salty").data :=
  (prompts_interpolate_verbatim "- tomato\n- basil" "Any" "" "Salty").2.2 rfl rfl

/-- Claim C6: for a well-formed recipe document — three sections, each
introduced by the `### ` heading marker, none containing a further
occurrence of the marker, each non-blank — the parsing step of
src/recip.py line 151 yields exactly 3 non-empty sections. -/
theorem recipe_list_three_sections (s1 s2 s3 : List Char)
    (ht1 : trimChars s1 ≠ []) (ht2 : trimChars s2 ≠ []) (ht3 : trimChars s3 ≠ [])
    (n1 : noMarkerIn "### ".data s1) (n2 : noMarkerIn "### ".data s2)
    (n3 : noMarkerAt "### ".data s3) :
    (recipe_list ("### ".data ++ s1 ++ "### ".data ++ s2 ++ "### ".data ++ s3)).length = 3 := by
  have hsep : ("### ".data : List Char) ≠ [] := by decide
  simp only [List.append_assoc]
  have h0 : pySplit "### ".data
      ("### ".data ++ (s1 ++ ("### ".data ++ (s2 ++ ("### ".data ++ s3))))) =
      [] :: pySplit "### ".data (s1 ++ ("### ".data ++ (s2 ++ ("### ".data ++ s3)))) := by
    have h := pySplit_cons "### ".data hsep []
      (s1 ++ ("### ".data ++ (s2 ++ ("### ".data ++ s3)))) (by intro p hp; simp at hp)
    simpa using h
  have h1 : pySplit "### ".data (s1 ++ ("### ".data ++ (s2 ++ ("### ".data ++ s3)))) =
      s1 :: pySplit "### ".data (s2 ++ ("### ".data ++ s3)) :=
    pySplit_cons "### ".data hsep s1 (s2 ++ ("### ".data ++ s3))
      (noMarkerIn_extend "### ".data s1 (s2 ++ ("### ".data ++ s3)) n1)
  have h2 : pySplit "### ".data (s2 ++ ("### ".data ++ s3)) =
      s2 :: pySplit "### ".data s3 :=
    pySplit_cons "### ".data hsep s2 s3 (noMarkerIn_extend "### ".data s2 s3 n2)
  have h3 : pySplit "### ".data s3 = [s3] := pySplit_single "### ".data hsep s3 n3
  unfold recipe_list
  rw [h0, h1, h2, h3]
  simp [List.filterMap_cons, ht1, ht2, ht3, show trimChars [] = [] from rfl]

/-- Closed witness for C6 at a concrete three-section document. -/
theorem recipe_list_three_sections_witness :
    (recipe_list ("### ".data ++ "1. Pasta Bowl\n- fresh veggies\n".data ++ "### ".data ++
      "2. Tomato Soup\n- warm and light\n".data ++ "### ".data ++
      "3. Garden Salad\n- crisp greens".data)).length = 3 :=
  recipe_list_three_sections "1. Pasta Bowl\n- fresh veggies\n".data
    "2. Tomato Soup\n- warm and light\n".data "3. Garden Salad\n- crisp greens".data
    (by decide) (by decide) (by decide) (by decide) (by decide) (by decide)

/-- Claim C7, counterexample: at the concrete title "Lasagna" the
function returns two sentences joined by a newline, and the second
sentence does not contain the title at all — refuting the claim that
each of the two suggestion sentences references the given title. -/
theorem recommend_similar_second_line_no_title :
    recommend_similar_recipe "Lasagna" =
      "If you liked Lasagna, try making a healthier version with less oil.\nOr try a variation using seasonal vegetables or different spices!" ∧
    ¬ containsStr "Lasagna".data
      "Or try a variation using seasonal vegetables or different spices!".data := by
  constructor
  · rfl
  · rw [containsStr_iff_occursB]
    decide

/-- Claim C7, amended: `recommend_similar_recipe` performs no model call
(it is a pure string template) and returns two hardcoded templated
suggestion sentences joined by a newline into a single string, of which
the first references the given title verbatim and the second is a fixed
sentence. -/
theorem recommend_similar_recipe_shape (selected_recipe : String) :
    ∃ line1 : String,
      recommend_similar_recipe selected_recipe =
        line1 ++ "\n" ++ "Or try a variation using seasonal vegetables or different spices!" ∧
      containsStr selected_recipe.data line1.data := by
  refine ⟨"If you liked " ++ selected_recipe ++
    ", try making a healthier version with less oil.", rfl, ?_⟩
  exact ⟨"If you liked ".data, ", try making a healthier version with less oil.".data,
    by simp [string_data_append, List.append_assoc]⟩

/-- Claim C8: in both top-level request handlers every `DecodeError` and
`ModelCallError` is caught exactly once and surfaced as the single
generic message `Something went wrong: <e>`; the first error ends the
request with that banner and nothing else, no step is retried (each
model call happens at most once), the same banner shape is used for
decode and model failures alike, and no error propagates out (the
result type has no escaping-exception case). -/
theorem handler_catches_all_errors
    (normalizeStep : Except StepError String)
    (detectStep recommendStep : String → Except StepError String)
    (uploaded_file : ByteStream)
    (detectChainStep : List Nat → Except StepError String)
    (recipeStep agentStep : String → Except StepError String)
    (pick : List (List Char) → List Char) (innerPressed : Bool) :
    ((runMainHandler normalizeStep detectStep recommendStep).2.1 ≤ 1 ∧
      (runMainHandler normalizeStep detectStep recommendStep).2.2 ≤ 1 ∧
      (match pipelineFirstError normalizeStep detectStep recommendStep with
        | some e => (runMainHandler normalizeStep detectStep recommendStep).1 =
            UIOutcome.errorShown ("Something went wrong: " ++ e.text)
        | none => ∃ ing rcp, (runMainHandler normalizeStep detectStep recommendStep).1 =
            UIOutcome.success ing rcp)) ∧
    (∀ m : String,
      (runMainHandler (Except.error (StepError.decodeError m)) detectStep recommendStep).1 =
        (runMainHandler (Except.error (StepError.modelCallError m)) detectStep
          recommendStep).1) ∧
    ((runFlowHandler uploaded_file detectChainStep recipeStep agentStep pick
        innerPressed).2.1 ≤ 1 ∧
      (runFlowHandler uploaded_file detectChainStep recipeStep agentStep pick
        innerPressed).2.2.1 ≤ 1 ∧
      (runFlowHandler uploaded_file detectChainStep recipeStep agentStep pick
        innerPressed).2.2.2 ≤ 1 ∧
      ((∃ i r a, (runFlowHandler uploaded_file detectChainStep recipeStep agentStep pick
          innerPressed).1 = FlowOutcome.shown i r a) ∨
        (∃ e : StepError, (runFlowHandler uploaded_file detectChainStep recipeStep agentStep
          pick innerPressed).1 =
          FlowOutcome.errorShown ("Something went wrong: " ++ e.text)))) := by
  refine ⟨?_, ?_, ?_⟩
  · rcases normalizeStep with e | u
    · simp [runMainHandler, pipelineFirstError]
    · rcases hd : detectStep u with e | i
      · simp [runMainHandler, pipelineFirstError, hd]
      · rcases hr : recommendStep i with e | rcp
        · simp [runMainHandler, pipelineFirstError, hd, hr]
        · simp [runMainHandler, pipelineFirstError, hd, hr]
  · intro m
    rfl
  · rcases hd : detectChainStep ((uploaded_file.seekStart).readAll) with e | i
    · refine ⟨?_, ?_, ?_, Or.inr ⟨e, ?_⟩⟩ <;> simp [runFlowHandler, hd]
    · rcases hr : recipeStep i with e | rcp
      · refine ⟨?_, ?_, ?_, Or.inr ⟨e, ?_⟩⟩ <;> simp [runFlowHandler, hd, hr]
      · cases innerPressed with
        | false =>
            refine ⟨?_, ?_, ?_, Or.inl ⟨i, rcp, none, ?_⟩⟩ <;> simp [runFlowHandler, hd, hr]
        | true =>
            simp only [runFlowHandler, hd, hr, if_true]
            rcases ha : agentStep ("The user liked " ++
                String.mk (pick (((recipe_list rcp.data).take 3).map
                  fun r => r.takeWhile (· ≠ '\n'))) ++ ". Recommend similar recipes.") with
              e | out
            · exact ⟨Nat.le_refl 1, Nat.le_refl 1, Nat.le_refl 1, Or.inr ⟨e, rfl⟩⟩
            · exact ⟨Nat.le_refl 1, Nat.le_refl 1, Nat.le_refl 1,
                Or.inl ⟨i, rcp, some out, rfl⟩⟩

/-- Claim C9, counterexample: `image_to_data_url` does not seek the
stream before reading; at position 1 of a one-byte stream it sees no
bytes (and fails to decode), while at position 0 it succeeds, so its
result is not independent of the stream position at call time. -/
theorem image_to_data_url_position_dependent :
    image_to_data_url exImaging ⟨[7], 1⟩ ≠ image_to_data_url exImaging ⟨[7], 0⟩ := by
  decide

/-- Claim C9, amended: `image_to_data_url` itself reads the input stream
from its current position with no seek and no other side effect, so its
result equals a read of the remaining bytes; the reset to the start is
performed by the caller in src/recip.py (`uploaded_file.seek(0)` before
the detection read), and after that seek the read sees the full contents
independently of the previous position. -/
theorem image_to_data_url_reads_current_position {Img : Type} (M : ImagingModel Img)
    (invokeModel : List ChatMsg → Except String String) (s : ByteStream) :
    image_to_data_url M s = image_to_data_url M ⟨s.data.drop s.pos, 0⟩ ∧
    (s.seekStart).readAll = s.data ∧
    detect_ingredients_chain invokeModel (s.seekStart) =
      detect_ingredients_chain invokeModel ⟨s.data, 0⟩ := by
  refine ⟨?_, ?_, rfl⟩
  · unfold image_to_data_url ByteStream.readAll
    simp
  · unfold ByteStream.seekStart ByteStream.readAll
    simp

/-- Claim C10: whenever `image_to_data_url` succeeds, the returned data
URL declares the MIME type `image/jpeg` and carries a base64 payload of
the JPEG re-encoding of the decoded image — whatever format the input
bytes were in, the input format is never preserved. -/
theorem image_to_data_url_always_jpeg {Img : Type} (M : ImagingModel Img)
    (s : ByteStream) (r : String) (h : image_to_data_url M s = some r) :
    ∃ img, M.decode s.readAll = some img ∧
      r = "data:image/jpeg;base64," ++
        String.mk (b64EncodeBytes (M.encodeJPEG (M.toRGB img))) := by
  unfold image_to_data_url at h
  cases hd : M.decode s.readAll with
  | none =>
      rw [hd] at h
      simp at h
  | some img =>
      rw [hd] at h
      simp only [Option.map_some', Option.some.injEq] at h
      exact ⟨img, rfl, h.symm⟩

/-- Closed witness for C10: a concrete three-byte input produces the
JPEG data URL with payload `AQID`, the base64 of the bytes 1, 2, 3. -/
theorem image_to_data_url_always_jpeg_witness :
    ∃ img, exImaging.decode (ByteStream.readAll ⟨[1, 2, 3], 0⟩) = some img ∧
      "data:image/jpeg;base64,AQID" = "data:image/jpeg;base64," ++
        String.mk (b64EncodeBytes (exImaging.encodeJPEG (exImaging.toRGB img))) :=
  image_to_data_url_always_jpeg exImaging ⟨[1, 2, 3], 0⟩ "data:image/jpeg;base64,AQID"
    (by decide)
